import Mathlib

/-!
Shallow embedding of `air_data_generator.py`, an air-quality data simulator:
a producer loop synthesizes one record per (device, timestamp) pair and feeds
a shared queue; four worker threads drain the queue, accumulate batches,
validate timestamp ordering and bulk-insert the batches into a MySQL table.
Components of the repository's range-partitioned variant that are not part of
this file are modelled from the specification where the doc comment says so.

Conventions: Python `datetime` values are embedded as `Int` (they only need a
linear order and translation by a step); measurement values as `ℚ`; the
random-number and clock capabilities are passed in explicitly so that the
pure data flow of the source is preserved.
-/

/-- Fixed per-channel value domains (`PARAMETER_RANGES`, src lines 18-25);
unknown keys never occur in the source and map to the junk pair (0, 0). -/
def PARAMETER_RANGES : String → ℚ × ℚ
  | "pm25" => (0, 500)
  | "pm10" => (0, 600)
  | "co" => (0, 15)
  | "no2" => (0, 200)
  | "so2" => (0, 500)
  | "o3" => (0, 300)
  | _ => (0, 0)

/-- Records per insert batch (`BATCH_SIZE`, src line 28). -/
def BATCH_SIZE : Nat := 1000

/-- Worker thread count (`NUM_THREADS`, src line 29). -/
def NUM_THREADS : Nat := 4

/-- Python `round(value, ndigits)` on the rationals: scale by `10 ^ ndigits`,
round to the nearest integer, scale back.  (Python breaks ties toward the even
integer; only the nearest-integer property is used below, so Mathlib `round`,
which breaks ties upward, stands in for it.) -/
def pyRound (decimals : Nat) (value : ℚ) : ℚ :=
  ((round (value * 10 ^ decimals) : ℤ) : ℚ) / 10 ^ decimals

/-- `generate_random_value` (src lines 103-114): draw a value from
`[min_val, max_val]` with the supplied capability (standing for
`random.uniform`) and round it to `decimals` places (the source default is 2;
call sites below always pass the value used by the source). -/
def generate_random_value (uniform : ℚ → ℚ → ℚ) (min_val max_val : ℚ)
    (decimals : Nat) : ℚ :=
  pyRound decimals (uniform min_val max_val)

/-- One air-quality record: the dict built at src lines 124-137. -/
structure AirRecord where
  id : Nat
  mn : String
  monitor_time : Int
  pm25 : ℚ
  pm10 : ℚ
  co : ℚ
  no2 : ℚ
  so2 : ℚ
  o3 : ℚ
  create_time : Int
  update_time : Int
deriving DecidableEq

/-- `generate_air_quality_data` (src lines 116-138).  `idv` is the snowflake
id obtained from the external allocator; `uniform k` is the k-th call this
record makes to `random.uniform` (source order: pm25, pm10, co, no2, so2, o3 —
six independent draws); `now1` and `now2` are the results of the two
successive `datetime.now()` calls at src lines 135 and 136, in call order. -/
def generate_air_quality_data (idv : Nat) (uniform : Nat → ℚ → ℚ → ℚ)
    (mn : String) (monitor_time : Int) (now1 now2 : Int) : AirRecord :=
  { id := idv
    mn := mn
    monitor_time := monitor_time
    pm25 := generate_random_value (uniform 0) (PARAMETER_RANGES "pm25").1 (PARAMETER_RANGES "pm25").2 2
    pm10 := generate_random_value (uniform 1) (PARAMETER_RANGES "pm10").1 (PARAMETER_RANGES "pm10").2 2
    co := generate_random_value (uniform 2) (PARAMETER_RANGES "co").1 (PARAMETER_RANGES "co").2 3
    no2 := generate_random_value (uniform 3) (PARAMETER_RANGES "no2").1 (PARAMETER_RANGES "no2").2 2
    so2 := generate_random_value (uniform 4) (PARAMETER_RANGES "so2").1 (PARAMETER_RANGES "so2").2 2
    o3 := generate_random_value (uniform 5) (PARAMETER_RANGES "o3").1 (PARAMETER_RANGES "o3").2 2
    create_time := now1
    update_time := now2 }

/-- A degenerate but admissible stand-in for `random.uniform`: every draw
returns the lower end of the requested interval.  Used by concrete runs. -/
def uniformLow : Nat → ℚ → ℚ → ℚ := fun _ a _ => a

/-- One diagnostic printed by `check_time_order`: the worker id and the two
boundary timestamps involved (the pair of prints at src lines 158-160 for an
in-batch violation, or 165-167 for a cross-batch violation). -/
structure TimeWarning where
  threadId : Nat
  prevTime : Int
  currTime : Int
deriving DecidableEq

/-- The in-batch scan of `check_time_order` (src lines 152-160): for every
adjacent pair whose second timestamp is strictly smaller than the first, one
diagnostic carrying the two timestamps is emitted, in scan order. -/
def adjacentWarnings (tid : Nat) : List AirRecord → List TimeWarning
  | a :: b :: rest =>
      (if b.monitor_time < a.monitor_time
        then [⟨tid, a.monitor_time, b.monitor_time⟩] else []) ++
        adjacentWarnings tid (b :: rest)
  | _ => []

/-- `check_time_order` (src lines 140-170), as a pure function from the
worker's previous `last_times[tid]` entry and the batch to the emitted
diagnostics and the updated `last_times[tid]` entry.  The body runs under
`thread_locks[tid]`; the lock only guards this worker's own cell, so it has no
observable effect in the embedding.  Both call sites guard the call with
`if batch_data:`, so the batch is never empty; on the unreachable empty batch
(where line 170 would raise) the previous entry is kept.  A `datetime` is
always truthy, so the Python guard `if current_last_time` at line 163 is
exactly the `some` match. -/
def check_time_order (tid : Nat) (lastTime : Option Int)
    (batch : List AirRecord) : List TimeWarning × Option Int :=
  let adj := adjacentWarnings tid batch
  let cross :=
    match lastTime, batch with
    | some lt, first :: _ =>
        if first.monitor_time < lt then [⟨tid, lt, first.monitor_time⟩] else []
    | _, _ => []
  let newLast :=
    match batch.getLast? with
    | some last => some last.monitor_time
    | none => lastTime
  (adj ++ cross, newLast)

/-- What one `data_queue.get(timeout=1)` call observed by a worker returns:
a record, the `None` termination sentinel, or a 1-second timeout with the
queue still empty (which makes `get` raise `queue.Empty`). -/
inductive QItem
  | record (r : AirRecord)
  | sentinel
  | timeout
deriving DecidableEq

/-- How a worker thread left `batch_insert_data`: `finished` is the `return`
at src line 207 (sentinel observed); `died` is termination through the
outermost `except Exception` handler at src line 242. -/
inductive Fate
  | finished
  | died
deriving DecidableEq

/-- Observable state accumulated by one worker: `counted` is
`insert_counts[tid]`; `lastTime`/`warnings` belong to the Order Validator;
`committedCounted` are batches committed on the two paths that update
`insert_counts` (src lines 213-220 and 222-228); `committedDrain` are batches
committed on the sentinel path (src lines 203-207), which updates no counter;
`failures` are rolled-back batches whose size and error are logged (src lines
230-240); `attempts` is every batch passed to `do_batch_insert`, in call
order; `sentinelReput` records the `data_queue.put(None)` at src line 201. -/
structure WState where
  counted : Nat
  lastTime : Option Int
  warnings : List TimeWarning
  committedCounted : List (List AirRecord)
  committedDrain : List (List AirRecord)
  failures : List (List AirRecord)
  attempts : List (List AirRecord)
  sentinelReput : Bool
deriving DecidableEq

/-- The worker's state at thread start. -/
def initialWState : WState := ⟨0, none, [], [], [], [], [], false⟩

/-- A worker run's final observable state together with how the thread left
its loop. -/
structure WorkerResult extends WState where
  fate : Fate
deriving DecidableEq

/-- Attributes defined by the class `Queue` of the Python 3 standard library
module `queue` (its public methods; CPython `Lib/queue.py`).  The exception
classes `Empty` and `Full` are module-level names of `queue`, not attributes
of the class, so they are absent here. -/
def queue_Queue_class_attrs : List String :=
  ["task_done", "join", "qsize", "empty", "full", "put", "get",
   "put_nowait", "get_nowait"]

/-- Whether evaluating the expression `Queue.Empty` of src line 196 succeeds:
the name `Queue` is the class imported at src line 9, and attribute lookup on
a class succeeds exactly when the class defines the attribute.  When it fails,
the lookup raises `AttributeError` while the `queue.Empty` exception is being
handled, and that `AttributeError` propagates. -/
def queueClassHasEmptyAttr : Bool := queue_Queue_class_attrs.contains "Empty"

/-- A flush on one of the two counting paths (src lines 213-220 full batch,
222-228 remainder): run the Order Validator, record the insert attempt, then
either commit and add the batch length to `insert_counts[tid]` (both updates
under `thread_locks[tid]`), or — when `do_batch_insert`/`commit` raises, which
the oracle `fails` decides from the batch — fall into the handler at src lines
230-240: the batch size and error are logged and the transaction rolled back,
so the batch persists nothing.  Returns the new state and whether the commit
succeeded. -/
def flushCounted (fails : List AirRecord → Bool) (tid : Nat)
    (batch : List AirRecord) (st : WState) : WState × Bool :=
  let chk := check_time_order tid st.lastTime batch
  let st1 : WState :=
    { st with warnings := st.warnings ++ chk.1, lastTime := chk.2,
              attempts := st.attempts ++ [batch] }
  if fails batch then
    ({ st1 with failures := st1.failures ++ [batch] }, false)
  else
    ({ st1 with committedCounted := st1.committedCounted ++ [batch],
                counted := st1.counted + batch.length }, true)

/-- The flush on the sentinel path (src lines 203-207): identical to
`flushCounted` except that a successful commit updates no counter — the code
between lines 203 and 207 contains no `insert_counts` update. -/
def flushDrain (fails : List AirRecord → Bool) (tid : Nat)
    (batch : List AirRecord) (st : WState) : WState × Bool :=
  let chk := check_time_order tid st.lastTime batch
  let st1 : WState :=
    { st with warnings := st.warnings ++ chk.1, lastTime := chk.2,
              attempts := st.attempts ++ [batch] }
  if fails batch then
    ({ st1 with failures := st1.failures ++ [batch] }, false)
  else
    ({ st1 with committedDrain := st1.committedDrain ++ [batch] }, true)

/-- The worker loop of `batch_insert_data` (src lines 186-244) over the
sequence of values its `data_queue.get` calls return.  `room` is the number
of iterations left in the current `for _ in range(BATCH_SIZE)` loop (src line
192), `batch` is `batch_data`.  When `room` hits 0 the `for` loop has ended:
the remainder flush of src lines 222-228 runs and the `while` loop restarts a
fresh `for` pass (`running` is `True` throughout a run of this function; the
flag is owned by the Lifecycle Controller).  An exhausted input list means no
item ever arrives again, so the next `get` raises `queue.Empty`; handling it
evaluates `Queue.Empty` (src line 196), a nonexistent class attribute, so an
`AttributeError` escapes to the outermost handler and the thread dies.  A
failed commit never escapes: the handler at src lines 230-240 absorbs it and
the `while` loop restarts. -/
def runWorker (fails : List AirRecord → Bool) (tid : Nat) :
    List QItem → Nat → List AirRecord → WState → WorkerResult
  | [], room, batch, st =>
      let st1 := if room = 0 ∧ batch ≠ [] then (flushCounted fails tid batch st).1 else st
      { toWState := st1, fate := Fate.died }
  | item :: rest, room, batch, st =>
      let st1 := if room = 0 ∧ batch ≠ [] then (flushCounted fails tid batch st).1 else st
      let batch1 := if room = 0 then [] else batch
      let room1 := if room = 0 then BATCH_SIZE else room
      match item with
      | QItem.timeout =>
          if queueClassHasEmptyAttr then
            runWorker fails tid rest (room1 - 1) batch1 st1
          else
            { toWState := st1, fate := Fate.died }
      | QItem.sentinel =>
          let st2 : WState := { st1 with sentinelReput := true }
          if batch1 = [] then
            { toWState := st2, fate := Fate.finished }
          else
            let fr := flushDrain fails tid batch1 st2
            if fr.2 then { toWState := fr.1, fate := Fate.finished }
            else runWorker fails tid rest BATCH_SIZE [] fr.1
      | QItem.record r =>
          let b2 := batch1 ++ [r]
          if BATCH_SIZE ≤ b2.length then
            let fr := flushCounted fails tid b2 st1
            if fr.2 then runWorker fails tid rest (room1 - 1) [] fr.1
            else runWorker fails tid rest BATCH_SIZE [] fr.1
          else
            runWorker fails tid rest (room1 - 1) b2 st1

/-- Two concrete records used by concrete runs below. -/
def sampleRec0 : AirRecord := ⟨0, "MN00001", 0, 0, 0, 0, 0, 0, 0, 0, 0⟩

/-- A second concrete record, one timestamp later. -/
def sampleRec1 : AirRecord := ⟨1, "MN00002", 1, 0, 0, 0, 0, 0, 0, 0, 0⟩

/-- The store-facing observables of a worker run: everything except the Order
Validator's own cells (`lastTime`, `warnings`).  Used to state that detection
never blocks or discards data. -/
def coreOf (res : WorkerResult) :
    Nat × List (List AirRecord) × List (List AirRecord) × List (List AirRecord) ×
      List (List AirRecord) × Bool × Fate :=
  (res.counted, res.committedCounted, res.committedDrain, res.failures,
    res.attempts, res.sentinelReput, res.fate)

/-- A store-error oracle for concrete runs: the multi-row insert of any batch
with at least two rows raises, while any single-row batch commits fine (the
"one malformed record poisons the multi-row statement" situation). -/
def failsMultiRow : List AirRecord → Bool := fun b => decide (2 ≤ b.length)

/-- A store-error oracle for concrete runs: no insert ever fails. -/
def failsNever : List AirRecord → Bool := fun _ => false

/-- One worker thread as the Lifecycle Controller sees it: `exitTime` is how
many more seconds the thread needs, once the termination request arrives,
until `batch_insert_data` returns and its `finally` block (src lines 245-253)
releases the thread's pooled connection; `connId` is that connection. -/
structure SimWorker where
  exitTime : Nat
  connId : Nat
deriving DecidableEq

/-- The externally visible actions of the shutdown path, in order. -/
inductive LAction
  | setRunningFalse
  | drainQueue
  | putSentinel
  | joinWorker (connId : Nat)
  | closeConn (connId : Nat)
deriving DecidableEq

/-- Process-wide state owned by the Lifecycle Controller: the cooperative
`running` flag (src line 38), the shared intake queue (items are data; `none`
is the sentinel stop marker), the live worker threads, the connection ids
sitting in the pool's internal `_cnx_queue`, and the ids of all currently
open connections (idle in the pool or checked out by a worker). -/
structure LifeState where
  running : Bool
  queue : List (Option Unit)
  workers : List SimWorker
  poolIdle : List Nat
  openConns : List Nat
deriving DecidableEq

/-- The per-worker join grace period: `t.join(timeout=5)` at src line 79. -/
def GRACE_PERIOD : Nat := 5

/-- `cleanup_resources` (src lines 54-101): drain the intake queue (lines
63-68) and inject the `None` sentinel (line 70); join each worker with the
5-second timeout (lines 75-81) — a worker finishing within the grace period
exits, its `finally` returning its pooled connection to `_cnx_queue` (a
`PooledMySQLConnection.close()` returns the connection to its pool), while a
worker needing longer is abandoned, alive and holding its connection; then
close every connection found in `_cnx_queue` (lines 84-96): the pool's idle
connections plus those just returned by exited workers.  Checked-out
connections of abandoned workers are not in `_cnx_queue` and stay open. -/
def cleanup_resources (s : LifeState) : LifeState × List LAction :=
  let exited := s.workers.filter (fun w => decide (w.exitTime ≤ GRACE_PERIOD))
  let alive := s.workers.filter (fun w => decide (GRACE_PERIOD < w.exitTime))
  let closedByPool := s.poolIdle ++ exited.map SimWorker.connId
  let s1 : LifeState :=
    { s with queue := [none],
             workers := alive,
             poolIdle := [],
             openConns := s.openConns.filter (fun c => decide (c ∉ closedByPool)) }
  (s1, [LAction.drainQueue, LAction.putSentinel] ++
    s.workers.map (fun w => LAction.joinWorker w.connId) ++
    closedByPool.map LAction.closeConn)

/-- `signal_handler` (src lines 42-52): on a termination request, set the
running flag to false, then run `cleanup_resources` (the final `sys.exit(0)`
is outside the model). -/
def signal_handler (s : LifeState) : LifeState × List LAction :=
  let s1 : LifeState := { s with running := false }
  let c := cleanup_resources s1
  (c.1, LAction.setRunningFalse :: c.2)

/-- A concrete mid-run state: one item queued, one worker that needs 6 s to
finish (more than the grace period) holding connection 1, and connection 2
idle in the pool. -/
def sampleLifeState : LifeState :=
  { running := true
    queue := [some ()]
    workers := [⟨6, 1⟩]
    poolIdle := [2]
    openConns := [1, 2] }

/-- The producer loop of `main` (src lines 418-447): starting from the
requested start time, emit one time point per iteration and advance by the
interval `delta` while `current_time <= end_time` (modelled for a run where
`running` stays true and no record cap cuts the loop short; at each emitted
point the inner loop at src lines 426-433 enqueues one record per device).
The source's `delta` is one second, minute or hour — always positive; the
unreachable non-positive `delta` is modelled as producing nothing. -/
def producerTimes (delta endT cur : Int) : List Int :=
  if h : cur ≤ endT ∧ 0 < delta then cur :: producerTimes delta endT (cur + delta)
  else []
termination_by (endT + 1 - cur).toNat
decreasing_by
  rcases h with ⟨h1, h2⟩
  omega

/-- Modelled from the spec: per-worker point counts of the Range Partitioner
(spec section 4.1) of the repository's purely range-partitioned strategy —
one of the "two partition strategies" the spec says the source contains, and
the one absent from src/ (the queue-fed variant in src/ never splits the
range).  Base points per worker = total / W; the first total % W workers
receive one extra point; a worker may receive zero points. -/
def pointCounts (total W : Nat) : List Nat :=
  (List.range W).map (fun i => total / W + if i < total % W then 1 else 0)

/-- Modelled from the spec: chronologically contiguous assignment — worker 0
takes the first count's worth of points, worker 1 the next, and so on (spec
section 4.1: sub-ranges are assigned in chronological order, contiguous). -/
def splitSizes : List Nat → List Int → List (List Int)
  | [], _ => []
  | n :: ns, pts => pts.take n :: splitSizes ns (pts.drop n)

/-- Modelled from the spec: the Range Partitioner's output — the list of
per-worker sub-ranges (as their time-point runs) over the requested range's
points. -/
def partitionAssignments (total W : Nat) (pts : List Int) : List (List Int) :=
  splitSizes (pointCounts total W) pts

/-- Modelled from the spec: the Completeness Auditor's comparison record
(spec section 4.5).  The Auditor is absent from src/: the queue-fed variant
merely prints each worker's `insert_counts` entry (src lines 468-472) with no
expected-count computation; the range-partitioned strategy it belongs to is
not under src/. -/
structure AuditReport where
  expected : Nat
  actual : Nat
  mismatchLogged : Bool
deriving DecidableEq

/-- Modelled from the spec: after a worker exhausts its assigned sub-range,
expectedCount = (time points in the sub-range) x (device count) is compared
against the worker's insertedCount; a mismatch is logged (detection only). -/
def auditWorker (subRangePoints : List Int) (devices : List String)
    (insertedCount : Nat) : AuditReport :=
  { expected := subRangePoints.length * devices.length
    actual := insertedCount
    mismatchLogged := decide (insertedCount ≠ subRangePoints.length * devices.length) }

/-- Modelled from the spec: the range-partitioned worker's generation order
(spec section 4.3) — for each timestamp in the worker's sub-range, one record
per device is appended before the timestamp advances.  Record synthesis is
the `generate_air_quality_data` of src/. -/
def rangeWorkerRecords (uniform : Nat → ℚ → ℚ → ℚ) (idv : Nat) (now : Int)
    (subRangePoints : List Int) (devices : List String) : List AirRecord :=
  (subRangePoints.map (fun t =>
    devices.map (fun mn => generate_air_quality_data idv uniform mn t now now))).flatten

/-- Modelled from the spec: a worker with no row failures persists every
generated record, incrementing its insertedCount once per persisted record
(spec section 4.4), so its final insertedCount is the number of records it
generated. -/
def rangeWorkerInsertedCount (uniform : Nat → ℚ → ℚ → ℚ) (idv : Nat) (now : Int)
    (subRangePoints : List Int) (devices : List String) : Nat :=
  (rangeWorkerRecords uniform idv now subRangePoints devices).length

/-- `round` is monotone on the rationals. -/
theorem roundRatMono {x y : ℚ} (h : x ≤ y) : round x ≤ round y := by
  rw [round_eq, round_eq]
  exact Int.floor_le_floor (by linarith)

/-- Rounding to `d` decimal places keeps a value inside an interval with
integer endpoints. -/
theorem pyRound_mem_interval {a b : ℤ} {x : ℚ} (d : Nat)
    (ha : (a : ℚ) ≤ x) (hb : x ≤ (b : ℚ)) :
    (a : ℚ) ≤ pyRound d x ∧ pyRound d x ≤ (b : ℚ) := by
  have hpow : (0 : ℚ) < 10 ^ d := by positivity
  have hca : ((a * 10 ^ d : ℤ) : ℚ) = (a : ℚ) * 10 ^ d := by push_cast; ring
  have hcb : ((b * 10 ^ d : ℤ) : ℚ) = (b : ℚ) * 10 ^ d := by push_cast; ring
  have hlo : (a * 10 ^ d : ℤ) ≤ round (x * 10 ^ d) := by
    have := roundRatMono (x := ((a * 10 ^ d : ℤ) : ℚ)) (y := x * 10 ^ d)
      (by rw [hca]; exact mul_le_mul_of_nonneg_right ha (le_of_lt hpow))
    rwa [round_intCast] at this
  have hhi : round (x * 10 ^ d) ≤ (b * 10 ^ d : ℤ) := by
    have := roundRatMono (x := x * 10 ^ d) (y := ((b * 10 ^ d : ℤ) : ℚ))
      (by rw [hcb]; exact mul_le_mul_of_nonneg_right hb (le_of_lt hpow))
    rwa [round_intCast] at this
  constructor
  · have h1 : ((a * 10 ^ d : ℤ) : ℚ) / 10 ^ d ≤ ((round (x * 10 ^ d) : ℤ) : ℚ) / 10 ^ d := by
      gcongr
    calc (a : ℚ) = ((a * 10 ^ d : ℤ) : ℚ) / 10 ^ d := by rw [hca]; field_simp
    _ ≤ _ := h1
  · have h1 : ((round (x * 10 ^ d) : ℤ) : ℚ) / 10 ^ d ≤ ((b * 10 ^ d : ℤ) : ℚ) / 10 ^ d := by
      gcongr
    calc pyRound d x ≤ ((b * 10 ^ d : ℤ) : ℚ) / 10 ^ d := h1
    _ = (b : ℚ) := by rw [hcb]; field_simp

/-- Every `pyRound d` output is an integer multiple of `10 ^ (-d)`. -/
theorem pyRound_precision (d : Nat) (x : ℚ) :
    ∃ k : ℤ, pyRound d x = (k : ℚ) / 10 ^ d :=
  ⟨round (x * 10 ^ d), rfl⟩

/-- The six channel domains, as plain pairs. -/
theorem PARAMETER_RANGES_pm25 : PARAMETER_RANGES "pm25" = (0, 500) := rfl

theorem PARAMETER_RANGES_pm10 : PARAMETER_RANGES "pm10" = (0, 600) := rfl

theorem PARAMETER_RANGES_co : PARAMETER_RANGES "co" = (0, 15) := rfl

theorem PARAMETER_RANGES_no2 : PARAMETER_RANGES "no2" = (0, 200) := rfl

theorem PARAMETER_RANGES_so2 : PARAMETER_RANGES "so2" = (0, 500) := rfl

theorem PARAMETER_RANGES_o3 : PARAMETER_RANGES "o3" = (0, 300) := rfl

/-- A rounded uniform draw from an integer-bounded interval stays inside the
interval and lands on the `10 ^ (-d)` grid. -/
theorem generate_random_value_spec (u : ℚ → ℚ → ℚ) (a b : ℤ) (d : Nat)
    (hab : (a : ℚ) ≤ (b : ℚ)) (hu : ∀ x y : ℚ, x ≤ y → x ≤ u x y ∧ u x y ≤ y) :
    ((a : ℚ) ≤ generate_random_value u a b d ∧ generate_random_value u a b d ≤ (b : ℚ)) ∧
      ∃ k : ℤ, generate_random_value u a b d = (k : ℚ) / 10 ^ d := by
  have h := hu (a : ℚ) (b : ℚ) hab
  exact ⟨pyRound_mem_interval d h.1 h.2, pyRound_precision d _⟩

/-- C9: for every device identifier and timestamp, the Record Synthesizer
(`generate_air_quality_data`) produces a record whose six measurement channels
each lie within their fixed per-channel [min, max] domain (pm25 in [0,500],
pm10 in [0,600], co in [0,15], no2 in [0,200], so2 in [0,500], o3 in [0,300]),
with five channels rounded to 2 decimal places and one channel (co) rounded to
3 decimal places, for any admissible behaviour of `random.uniform`. -/
theorem C9_channels_in_domain (idv : Nat) (uniform : Nat → ℚ → ℚ → ℚ)
    (mn : String) (monitor_time now1 now2 : Int) (r : AirRecord)
    (hr : r = generate_air_quality_data idv uniform mn monitor_time now1 now2)
    (hu : ∀ k, ∀ x y : ℚ, x ≤ y → x ≤ uniform k x y ∧ uniform k x y ≤ y) :
    ((0 ≤ r.pm25 ∧ r.pm25 ≤ 500) ∧ (0 ≤ r.pm10 ∧ r.pm10 ≤ 600) ∧
      (0 ≤ r.co ∧ r.co ≤ 15) ∧ (0 ≤ r.no2 ∧ r.no2 ≤ 200) ∧
      (0 ≤ r.so2 ∧ r.so2 ≤ 500) ∧ (0 ≤ r.o3 ∧ r.o3 ≤ 300)) ∧
    (∃ k : ℤ, r.pm25 = (k : ℚ) / 100) ∧ (∃ k : ℤ, r.pm10 = (k : ℚ) / 100) ∧
    (∃ k : ℤ, r.co = (k : ℚ) / 1000) ∧ (∃ k : ℤ, r.no2 = (k : ℚ) / 100) ∧
    (∃ k : ℤ, r.so2 = (k : ℚ) / 100) ∧ (∃ k : ℤ, r.o3 = (k : ℚ) / 100) := by
  subst hr
  have h0 := generate_random_value_spec (uniform 0) 0 500 2 (by norm_num) (hu 0)
  have h1 := generate_random_value_spec (uniform 1) 0 600 2 (by norm_num) (hu 1)
  have h2 := generate_random_value_spec (uniform 2) 0 15 3 (by norm_num) (hu 2)
  have h3 := generate_random_value_spec (uniform 3) 0 200 2 (by norm_num) (hu 3)
  have h4 := generate_random_value_spec (uniform 4) 0 500 2 (by norm_num) (hu 4)
  have h5 := generate_random_value_spec (uniform 5) 0 300 2 (by norm_num) (hu 5)
  push_cast at h0 h1 h2 h3 h4 h5
  norm_num at h0 h1 h2 h3 h4 h5
  exact ⟨⟨h0.1, h1.1, h2.1, h3.1, h4.1, h5.1⟩,
    h0.2, h1.2, h2.2, h3.2, h4.2, h5.2⟩

/-- Witness for C9: a concrete record built with the lower-end draw capability
satisfies the instantiated hypotheses and conclusion. -/
theorem C9_channels_in_domain_witness :
    ((generate_air_quality_data 7 uniformLow "MN00001" 0 0 0 =
        generate_air_quality_data 7 uniformLow "MN00001" 0 0 0) ∧
      (∀ k, ∀ x y : ℚ, x ≤ y → x ≤ uniformLow k x y ∧ uniformLow k x y ≤ y)) ∧
    (((0 ≤ (generate_air_quality_data 7 uniformLow "MN00001" 0 0 0).pm25 ∧
        (generate_air_quality_data 7 uniformLow "MN00001" 0 0 0).pm25 ≤ 500) ∧
      (0 ≤ (generate_air_quality_data 7 uniformLow "MN00001" 0 0 0).pm10 ∧
        (generate_air_quality_data 7 uniformLow "MN00001" 0 0 0).pm10 ≤ 600) ∧
      (0 ≤ (generate_air_quality_data 7 uniformLow "MN00001" 0 0 0).co ∧
        (generate_air_quality_data 7 uniformLow "MN00001" 0 0 0).co ≤ 15) ∧
      (0 ≤ (generate_air_quality_data 7 uniformLow "MN00001" 0 0 0).no2 ∧
        (generate_air_quality_data 7 uniformLow "MN00001" 0 0 0).no2 ≤ 200) ∧
      (0 ≤ (generate_air_quality_data 7 uniformLow "MN00001" 0 0 0).so2 ∧
        (generate_air_quality_data 7 uniformLow "MN00001" 0 0 0).so2 ≤ 500) ∧
      (0 ≤ (generate_air_quality_data 7 uniformLow "MN00001" 0 0 0).o3 ∧
        (generate_air_quality_data 7 uniformLow "MN00001" 0 0 0).o3 ≤ 300)) ∧
    (∃ k : ℤ, (generate_air_quality_data 7 uniformLow "MN00001" 0 0 0).pm25 = (k : ℚ) / 100) ∧
    (∃ k : ℤ, (generate_air_quality_data 7 uniformLow "MN00001" 0 0 0).pm10 = (k : ℚ) / 100) ∧
    (∃ k : ℤ, (generate_air_quality_data 7 uniformLow "MN00001" 0 0 0).co = (k : ℚ) / 1000) ∧
    (∃ k : ℤ, (generate_air_quality_data 7 uniformLow "MN00001" 0 0 0).no2 = (k : ℚ) / 100) ∧
    (∃ k : ℤ, (generate_air_quality_data 7 uniformLow "MN00001" 0 0 0).so2 = (k : ℚ) / 100) ∧
    (∃ k : ℤ, (generate_air_quality_data 7 uniformLow "MN00001" 0 0 0).o3 = (k : ℚ) / 100)) :=
  ⟨⟨rfl, fun _ _ _ h => ⟨le_rfl, h⟩⟩,
    C9_channels_in_domain 7 uniformLow "MN00001" 0 0 0 _ rfl
      (fun _ _ _ h => ⟨le_rfl, h⟩)⟩

/-- C10 (code evaluation at the failing input): when the wall clock advances
between the two `datetime.now()` calls at src lines 135 and 136 (readings 0
then 1), the synthesized record's `create_time` and `update_time` differ, so
the claimed equality `createdAt = updatedAt` fails on the code. -/
theorem C10_create_update_differ_when_clock_ticks :
    (generate_air_quality_data 0 uniformLow "MN00001" 0 0 1).create_time ≠
      (generate_air_quality_data 0 uniformLow "MN00001" 0 0 1).update_time := by
  decide

/-- Both failure and success branches of a counting flush record the insert
attempt. -/
theorem flushCounted_attempts (fails : List AirRecord → Bool) (tid : Nat)
    (batch : List AirRecord) (st : WState) :
    (flushCounted fails tid batch st).1.attempts = st.attempts ++ [batch] := by
  simp only [flushCounted]
  split <;> rfl

/-- Both failure and success branches of a drain flush record the insert
attempt. -/
theorem flushDrain_attempts (fails : List AirRecord → Bool) (tid : Nat)
    (batch : List AirRecord) (st : WState) :
    (flushDrain fails tid batch st).1.attempts = st.attempts ++ [batch] := by
  simp only [flushDrain]
  split <;> rfl

/-- Invariant behind C8: provided the accumulating buffer is strictly below
`BATCH_SIZE` and every attempt so far is bounded, every batch the rest of the
run passes to `do_batch_insert` has size at most `BATCH_SIZE`. -/
theorem runWorker_attempts_bounded (fails : List AirRecord → Bool) (tid : Nat) :
    ∀ (queue : List QItem) (room : Nat) (batch : List AirRecord) (st : WState),
      batch.length < BATCH_SIZE →
      (∀ b ∈ st.attempts, b.length ≤ BATCH_SIZE) →
      ∀ b ∈ (runWorker fails tid queue room batch st).attempts,
        b.length ≤ BATCH_SIZE := by
  intro queue
  induction queue with
  | nil =>
      intro room batch st hlen hst b hb
      simp only [runWorker] at hb
      by_cases hc : room = 0 ∧ batch ≠ []
      · rw [if_pos hc, flushCounted_attempts] at hb
        rcases List.mem_append.mp hb with h | h
        · exact hst b h
        · simp only [List.mem_singleton] at h
          exact h ▸ Nat.le_of_lt hlen
      · rw [if_neg hc] at hb
        exact hst b hb
  | cons item rest ih =>
      intro room batch st hlen hst b hb
      have hstep : ∀ st' : WState, (∀ b ∈ st'.attempts, b.length ≤ BATCH_SIZE) →
          st' = (if room = 0 ∧ batch ≠ [] then (flushCounted fails tid batch st).1 else st) →
          True := fun _ _ _ => trivial
      -- name the normalized pieces exactly as in the definition
      set st1 := (if room = 0 ∧ batch ≠ [] then (flushCounted fails tid batch st).1 else st) with hst1
      have hst1a : ∀ b ∈ st1.attempts, b.length ≤ BATCH_SIZE := by
        rw [hst1]
        by_cases hc : room = 0 ∧ batch ≠ []
        · rw [if_pos hc, flushCounted_attempts]
          intro b hb
          rcases List.mem_append.mp hb with h | h
          · exact hst b h
          · simp only [List.mem_singleton] at h
            exact h ▸ Nat.le_of_lt hlen
        · rw [if_neg hc]
          exact hst
      have hbatch1 : (if room = 0 then ([] : List AirRecord) else batch).length < BATCH_SIZE := by
        by_cases hr : room = 0
        · simp [hr, BATCH_SIZE]
        · simpa [hr] using hlen
      cases item with
      | timeout =>
          simp only [runWorker] at hb
          by_cases ha : queueClassHasEmptyAttr
          · rw [if_pos ha] at hb
            exact ih _ _ _ hbatch1 hst1a b hb
          · rw [if_neg ha] at hb
            exact hst1a b hb
      | sentinel =>
          simp only [runWorker] at hb
          by_cases hbe : (if room = 0 then ([] : List AirRecord) else batch) = []
          · rw [if_pos hbe] at hb
            exact hst1a b hb
          · rw [if_neg hbe] at hb
            have hdr : ∀ b ∈ (flushDrain fails tid
                (if room = 0 then ([] : List AirRecord) else batch)
                { st1 with sentinelReput := true }).1.attempts, b.length ≤ BATCH_SIZE := by
              rw [flushDrain_attempts]
              intro b hb
              rcases List.mem_append.mp hb with h | h
              · exact hst1a b h
              · simp only [List.mem_singleton] at h
                exact h ▸ Nat.le_of_lt hbatch1
            by_cases hok : (flushDrain fails tid
                (if room = 0 then ([] : List AirRecord) else batch)
                { st1 with sentinelReput := true }).2
            · rw [if_pos hok] at hb
              exact hdr b hb
            · rw [if_neg hok] at hb
              exact ih _ _ _ (by simp [BATCH_SIZE]) hdr b hb
      | record r =>
          simp only [runWorker] at hb
          have hb2 : ((if room = 0 then ([] : List AirRecord) else batch) ++ [r]).length ≤ BATCH_SIZE := by
            rw [List.length_append]
            simpa using hbatch1
          by_cases hfull : BATCH_SIZE ≤ ((if room = 0 then ([] : List AirRecord) else batch) ++ [r]).length
          · rw [if_pos hfull] at hb
            have hfc : ∀ b ∈ (flushCounted fails tid
                ((if room = 0 then ([] : List AirRecord) else batch) ++ [r]) st1).1.attempts,
                b.length ≤ BATCH_SIZE := by
              rw [flushCounted_attempts]
              intro b hb
              rcases List.mem_append.mp hb with h | h
              · exact hst1a b h
              · simp only [List.mem_singleton] at h
                exact h ▸ hb2
            by_cases hok : (flushCounted fails tid
                ((if room = 0 then ([] : List AirRecord) else batch) ++ [r]) st1).2
            · rw [if_pos hok] at hb
              exact ih _ _ _ (by simp [BATCH_SIZE]) hfc b hb
            · rw [if_neg hok] at hb
              exact ih _ _ _ (by simp [BATCH_SIZE]) hfc b hb
          · rw [if_neg hfull] at hb
            exact ih _ _ _ (Nat.lt_of_le_of_ne hb2 (fun he => hfull (le_of_eq he.symm))) hst1a b hb

/-- C8: every batch passed to the insert operation (`do_batch_insert`) during
a worker run that starts, as the thread does, with an empty buffer and a fresh
`for` pass, has size at most `BATCH_SIZE`: the worker flushes its buffer as
soon as it reaches the maximum (src line 213) or when its input is exhausted,
so no batch ever exceeds the maximum. -/
theorem C8_no_batch_exceeds_maximum (fails : List AirRecord → Bool) (tid : Nat)
    (queue : List QItem) :
    ∀ b ∈ (runWorker fails tid queue BATCH_SIZE [] initialWState).attempts,
      b.length ≤ BATCH_SIZE :=
  runWorker_attempts_bounded fails tid queue BATCH_SIZE [] initialWState
    (by decide) (by simp [initialWState])

/-- Witness for C8: in the concrete run that receives one record and then the
sentinel, the single attempted batch `[sampleRec0]` is within the maximum. -/
theorem C8_no_batch_exceeds_maximum_witness :
    ([sampleRec0] ∈ (runWorker failsNever 0 [QItem.record sampleRec0, QItem.sentinel]
        BATCH_SIZE [] initialWState).attempts) ∧
      [sampleRec0].length ≤ BATCH_SIZE :=
  ⟨by decide, C8_no_batch_exceeds_maximum failsNever 0
    [QItem.record sampleRec0, QItem.sentinel] [sampleRec0] (by decide)⟩

/-- C4 (code evaluation at the failing input): a worker that receives one
record and then the termination sentinel commits the record on the shutdown
drain path (src lines 203-207) and returns — yet `insert_counts[tid]` stays 0,
because that path, unlike the two counting paths, performs no
`insert_counts` update.  The persisted record does not increment the owning
worker's insertedCount, contradicting the claim. -/
theorem C4_drain_commit_not_counted :
    (runWorker failsNever 0 [QItem.record sampleRec0, QItem.sentinel]
        BATCH_SIZE [] initialWState).committedDrain = [[sampleRec0]] ∧
      (runWorker failsNever 0 [QItem.record sampleRec0, QItem.sentinel]
        BATCH_SIZE [] initialWState).counted = 0 ∧
      (runWorker failsNever 0 [QItem.record sampleRec0, QItem.sentinel]
        BATCH_SIZE [] initialWState).fate = Fate.finished := by
  decide

/-- C6: if a worker's timed `get` on the shared intake queue expires with no
item available, the worker does not continue waiting: `Queue.Empty` (src line
196) is not an attribute of the `Queue` class, so handling the timeout raises
`AttributeError`, which escapes every handler except the outermost one and
terminates the worker thread with its loop state abandoned. -/
theorem C6_timeout_terminates_worker (fails : List AirRecord → Bool) (tid : Nat)
    (rest : List QItem) (room : Nat) (batch : List AirRecord) (st : WState)
    (h : room ≠ 0) :
    runWorker fails tid (QItem.timeout :: rest) room batch st =
        { toWState := st, fate := Fate.died } ∧
      queueClassHasEmptyAttr = false := by
  have hc : ¬(room = 0 ∧ batch ≠ []) := fun hh => h hh.1
  have ha : queueClassHasEmptyAttr = false := by decide
  constructor
  · simp [runWorker, hc, ha]
  · exact ha

/-- Witness for C6: a concrete timeout in mid-batch kills the worker with two
queued items never processed and the pending record dropped. -/
theorem C6_timeout_terminates_worker_witness :
    (5 : Nat) ≠ 0 ∧
      (runWorker failsNever 0 (QItem.timeout :: [QItem.record sampleRec1, QItem.sentinel])
          5 [sampleRec0] initialWState =
          { toWState := initialWState, fate := Fate.died } ∧
        queueClassHasEmptyAttr = false) :=
  ⟨by decide, C6_timeout_terminates_worker failsNever 0
    [QItem.record sampleRec1, QItem.sentinel] 5 [sampleRec0] initialWState (by decide)⟩

/-- Counterexample to C1 as stated: the worker accumulates `[sampleRec0,
sampleRec1]`, their multi-row insert fails, and although each record passes
the store on its own (the oracle accepts every single-row batch), neither
record is persisted — there is no per-record fallback transaction, so the
claim "inserts each record of that batch in its own independent transaction
... persisting all the others" is false at this input. -/
theorem C1_counterexample :
    failsMultiRow [sampleRec0, sampleRec1] = true ∧
      (runWorker failsMultiRow 0
          [QItem.record sampleRec0, QItem.record sampleRec1, QItem.sentinel]
          BATCH_SIZE [] initialWState).failures = [[sampleRec0, sampleRec1]] ∧
      ¬ (∀ r ∈ [sampleRec0, sampleRec1], failsMultiRow [r] = false →
          r ∈ ((runWorker failsMultiRow 0
              [QItem.record sampleRec0, QItem.record sampleRec1, QItem.sentinel]
              BATCH_SIZE [] initialWState).committedCounted ++
            (runWorker failsMultiRow 0
              [QItem.record sampleRec0, QItem.record sampleRec1, QItem.sentinel]
              BATCH_SIZE [] initialWState).committedDrain).flatten) := by
  decide

/-- C1 as amended: when a full batch's multi-row insert fails, the worker
records the failed batch (its size and the error are what src line 232-234
log), rolls back so that nothing of the batch is committed or counted, drops
the batch, and continues the loop on the remaining input — the store error is
absorbed by the handler at src lines 230-240 and never escapes the worker
loop; but no row-level fallback happens. -/
theorem C1_rollback_log_continue (fails : List AirRecord → Bool) (tid : Nat)
    (r : AirRecord) (rest : List QItem) (room : Nat) (batch : List AirRecord)
    (st : WState) (h0 : room ≠ 0)
    (h1 : BATCH_SIZE ≤ (batch ++ [r]).length)
    (h2 : fails (batch ++ [r]) = true) :
    runWorker fails tid (QItem.record r :: rest) room batch st =
      runWorker fails tid rest BATCH_SIZE []
        { st with
            warnings := st.warnings ++ (check_time_order tid st.lastTime (batch ++ [r])).1,
            lastTime := (check_time_order tid st.lastTime (batch ++ [r])).2,
            attempts := st.attempts ++ [batch ++ [r]],
            failures := st.failures ++ [batch ++ [r]] } := by
  have hc : ¬(room = 0 ∧ batch ≠ []) := fun hh => h0 hh.1
  have hr : ¬ room = 0 := h0
  simp only [runWorker, if_neg hc, if_neg hr]
  rw [if_pos h1]
  simp [flushCounted, h2]

/-- Witness for C1's amended theorem: a concrete 999-record buffer plus one
arriving record forms a full failing batch; the run continues on the rest of
the queue with the batch logged as failed. -/
theorem C1_rollback_log_continue_witness :
    (5 : Nat) ≠ 0 ∧
      BATCH_SIZE ≤ (List.replicate 999 sampleRec0 ++ [sampleRec1]).length ∧
      failsMultiRow (List.replicate 999 sampleRec0 ++ [sampleRec1]) = true ∧
      runWorker failsMultiRow 0 (QItem.record sampleRec1 :: [])
          5 (List.replicate 999 sampleRec0) initialWState =
        runWorker failsMultiRow 0 [] BATCH_SIZE []
          { initialWState with
              warnings := initialWState.warnings ++
                (check_time_order 0 initialWState.lastTime
                  (List.replicate 999 sampleRec0 ++ [sampleRec1])).1,
              lastTime := (check_time_order 0 initialWState.lastTime
                (List.replicate 999 sampleRec0 ++ [sampleRec1])).2,
              attempts := initialWState.attempts ++
                [List.replicate 999 sampleRec0 ++ [sampleRec1]],
              failures := initialWState.failures ++
                [List.replicate 999 sampleRec0 ++ [sampleRec1]] } :=
  ⟨by decide,
    by simp only [BATCH_SIZE, List.length_append, List.length_replicate,
          List.length_cons, List.length_nil]; omega,
    by simp only [failsMultiRow, List.length_append, List.length_replicate,
          List.length_cons, List.length_nil, decide_eq_true_eq]; omega,
    C1_rollback_log_continue failsMultiRow 0 sampleRec1 [] 5
      (List.replicate 999 sampleRec0) initialWState (by decide)
      (by simp only [BATCH_SIZE, List.length_append, List.length_replicate,
            List.length_cons, List.length_nil]; omega)
      (by simp only [failsMultiRow, List.length_append, List.length_replicate,
            List.length_cons, List.length_nil, decide_eq_true_eq]; omega)⟩

/-- Full field-level description of a counting flush. -/
theorem flushCounted_fields (fails : List AirRecord → Bool) (tid : Nat)
    (batch : List AirRecord) (c : Nat) (lt : Option Int) (ws : List TimeWarning)
    (cc cd fl att : List (List AirRecord)) (sr : Bool) :
    flushCounted fails tid batch ⟨c, lt, ws, cc, cd, fl, att, sr⟩ =
      (⟨if fails batch then c else c + batch.length,
        (check_time_order tid lt batch).2,
        ws ++ (check_time_order tid lt batch).1,
        if fails batch then cc else cc ++ [batch],
        cd,
        if fails batch then fl ++ [batch] else fl,
        att ++ [batch], sr⟩, !(fails batch)) := by
  cases hfb : fails batch <;> simp [flushCounted, hfb]

/-- Full field-level description of a drain flush. -/
theorem flushDrain_fields (fails : List AirRecord → Bool) (tid : Nat)
    (batch : List AirRecord) (c : Nat) (lt : Option Int) (ws : List TimeWarning)
    (cc cd fl att : List (List AirRecord)) (sr : Bool) :
    flushDrain fails tid batch ⟨c, lt, ws, cc, cd, fl, att, sr⟩ =
      (⟨c,
        (check_time_order tid lt batch).2,
        ws ++ (check_time_order tid lt batch).1,
        cc,
        if fails batch then cd else cd ++ [batch],
        if fails batch then fl ++ [batch] else fl,
        att ++ [batch], sr⟩, !(fails batch)) := by
  cases hfb : fails batch <;> simp [flushDrain, hfb]

/-- `coreOf` of a fully explicit result. -/
theorem coreOf_mk (c : Nat) (lt : Option Int) (ws : List TimeWarning)
    (cc cd fl att : List (List AirRecord)) (sr : Bool) (fate : Fate) :
    coreOf ⟨⟨c, lt, ws, cc, cd, fl, att, sr⟩, fate⟩ =
      (c, cc, cd, fl, att, sr, fate) := rfl

/-- The Order Validator is passive: the store-facing observables of a worker
run (counts, committed and failed batches, insert attempts, sentinel
propagation, thread fate) do not depend on the validator's state — its
diagnostics never block or discard data. -/
theorem runWorker_core_ignores_validator (fails : List AirRecord → Bool) (tid : Nat) :
    ∀ (queue : List QItem) (room : Nat) (batch : List AirRecord)
      (c : Nat) (lt lt' : Option Int) (ws ws' : List TimeWarning)
      (cc cd fl att : List (List AirRecord)) (sr : Bool),
      coreOf (runWorker fails tid queue room batch ⟨c, lt, ws, cc, cd, fl, att, sr⟩) =
        coreOf (runWorker fails tid queue room batch ⟨c, lt', ws', cc, cd, fl, att, sr⟩) := by
  intro queue
  induction queue with
  | nil =>
      intro room batch c lt lt' ws ws' cc cd fl att sr
      by_cases hc : room = 0 ∧ batch ≠ []
      · simp [runWorker, hc, flushCounted_fields, coreOf_mk]
      · simp [runWorker, hc, coreOf_mk]
  | cons item rest ih =>
      intro room batch c lt lt' ws ws' cc cd fl att sr
      have ha : queueClassHasEmptyAttr = false := by decide
      have key : ∀ (room : Nat) (batch : List AirRecord) (c : Nat) (lt : Option Int)
          (ws : List TimeWarning) (cc cd fl att : List (List AirRecord)) (sr : Bool),
          coreOf (runWorker fails tid rest room batch ⟨c, lt, ws, cc, cd, fl, att, sr⟩) =
            coreOf (runWorker fails tid rest room batch ⟨c, none, [], cc, cd, fl, att, sr⟩) :=
        fun room batch c lt ws cc cd fl att sr =>
          ih room batch c lt none ws [] cc cd fl att sr
      by_cases hc : room = 0 ∧ batch ≠ []
      · obtain ⟨hr, hb⟩ := hc
        subst hr
        cases item <;>
          simp [runWorker, hb, ha, flushCounted_fields, flushDrain_fields,
            apply_ite coreOf, coreOf_mk, key]
      · by_cases hr : room = 0
        · have hb : batch = [] := by
            by_contra hbn
            exact hc ⟨hr, hbn⟩
          subst hr
          subst hb
          cases item <;>
            simp [runWorker, ha, flushCounted_fields, flushDrain_fields,
              apply_ite coreOf, coreOf_mk, key]
        · cases item <;>
            simp [runWorker, hr, ha, flushCounted_fields, flushDrain_fields,
              apply_ite coreOf, coreOf_mk, key]

/-- The in-batch scan emits no diagnostic exactly when the batch's timestamps
are non-decreasing. -/
theorem adjacentWarnings_eq_nil_iff (tid : Nat) :
    ∀ batch : List AirRecord, adjacentWarnings tid batch = [] ↔
      List.Chain' (fun a b : AirRecord => a.monitor_time ≤ b.monitor_time) batch := by
  intro batch
  induction batch with
  | nil => simp [adjacentWarnings]
  | cons a tail ih =>
      cases tail with
      | nil => simp [adjacentWarnings]
      | cons b rest =>
          by_cases hab : b.monitor_time < a.monitor_time
          · simp [adjacentWarnings, hab, List.chain'_cons, not_le.mpr hab]
          · have hle : a.monitor_time ≤ b.monitor_time := not_lt.mp hab
            simp only [adjacentWarnings, if_neg hab, List.nil_append,
              List.chain'_cons]
            simp [hle, ih]

/-- Every in-batch diagnostic carries the worker id it was called with. -/
theorem adjacentWarnings_threadId (tid : Nat) :
    ∀ (batch : List AirRecord) (w : TimeWarning),
      w ∈ adjacentWarnings tid batch → w.threadId = tid := by
  intro batch
  induction batch with
  | nil => intro w hw; simp [adjacentWarnings] at hw
  | cons a tail ih =>
      cases tail with
      | nil => intro w hw; simp [adjacentWarnings] at hw
      | cons b rest =>
          intro w hw
          simp only [adjacentWarnings, List.mem_append] at hw
          rcases hw with hw | hw
          · by_cases hab : b.monitor_time < a.monitor_time
            · rw [if_pos hab] at hw
              simp only [List.mem_singleton] at hw
              subst hw
              rfl
            · rw [if_neg hab] at hw
              simp at hw
          · exact ih w hw

/-- C7: for every non-empty batch flushed by a worker, `check_time_order`
reports a diagnostic (each carrying the worker id and the two boundary
timestamps by construction of `TimeWarning`) exactly when either two adjacent
records in the batch have decreasing timestamps or the batch's first
timestamp is strictly below the previously flushed batch's last timestamp;
it then records the batch's last timestamp; and detection is non-fatal — the
store-facing outcome of the whole worker run (insert attempts, commits,
counts, fate) is independent of the validator's state, so the batch is
inserted regardless and no record is ever discarded by detection. -/
theorem C7_order_validator_exact (tid : Nat) (lastTime : Option Int)
    (batch : List AirRecord) (h : batch ≠ []) :
    ((check_time_order tid lastTime batch).1 ≠ [] ↔
      (¬ List.Chain' (fun a b : AirRecord => a.monitor_time ≤ b.monitor_time) batch ∨
        ∃ lt first, lastTime = some lt ∧ batch.head? = some first ∧
          first.monitor_time < lt)) ∧
    (∀ w ∈ (check_time_order tid lastTime batch).1, w.threadId = tid) ∧
    (∃ last, batch.getLast? = some last ∧
      (check_time_order tid lastTime batch).2 = some last.monitor_time) ∧
    (∀ (fails : List AirRecord → Bool) (queue : List QItem) (room : Nat)
        (buf : List AirRecord) (c : Nat) (lt lt' : Option Int)
        (ws ws' : List TimeWarning) (cc cd fl att : List (List AirRecord))
        (sr : Bool),
        coreOf (runWorker fails tid queue room buf ⟨c, lt, ws, cc, cd, fl, att, sr⟩) =
          coreOf (runWorker fails tid queue room buf ⟨c, lt', ws', cc, cd, fl, att, sr⟩)) := by
  refine ⟨?_, ?_, ?_,
    fun fails queue room buf c lt lt' ws ws' cc cd fl att sr =>
      runWorker_core_ignores_validator fails tid queue room buf c lt lt' ws ws' cc cd fl att sr⟩
  · cases batch with
    | nil => exact absurd rfl h
    | cons a tail =>
        cases lastTime with
        | none => simp [check_time_order, adjacentWarnings_eq_nil_iff]
        | some lt0 =>
            by_cases hfc : a.monitor_time < lt0
            · simp [check_time_order, hfc, adjacentWarnings_eq_nil_iff]
            · simp [check_time_order, hfc, adjacentWarnings_eq_nil_iff]
  · intro w hw
    simp only [check_time_order] at hw
    rcases List.mem_append.mp hw with hw | hw
    · exact adjacentWarnings_threadId tid batch w hw
    · cases lastTime with
      | none => cases batch <;> simp at hw
      | some lt0 =>
          cases batch with
          | nil => simp at hw
          | cons a tail =>
              by_cases hfc : a.monitor_time < lt0
              · simp only [if_pos hfc, List.mem_singleton] at hw
                subst hw
                rfl
              · simp [hfc] at hw
  · refine ⟨batch.getLast h, List.getLast?_eq_getLast batch h, ?_⟩
    simp [check_time_order, List.getLast?_eq_getLast batch h]

/-- Witness for C7: a concrete two-record batch with decreasing timestamps
and a previous-batch boundary above the batch's first timestamp. -/
theorem C7_order_validator_exact_witness :
    ([sampleRec1, sampleRec0] : List AirRecord) ≠ [] ∧
      (((check_time_order 0 (some 5) [sampleRec1, sampleRec0]).1 ≠ [] ↔
        (¬ List.Chain' (fun a b : AirRecord => a.monitor_time ≤ b.monitor_time)
            [sampleRec1, sampleRec0] ∨
          ∃ lt first, (some 5 : Option Int) = some lt ∧
            ([sampleRec1, sampleRec0] : List AirRecord).head? = some first ∧
            first.monitor_time < lt)) ∧
      (∀ w ∈ (check_time_order 0 (some 5) [sampleRec1, sampleRec0]).1,
        w.threadId = 0) ∧
      (∃ last, ([sampleRec1, sampleRec0] : List AirRecord).getLast? = some last ∧
        (check_time_order 0 (some 5) [sampleRec1, sampleRec0]).2 =
          some last.monitor_time) ∧
      (∀ (fails : List AirRecord → Bool) (queue : List QItem) (room : Nat)
          (buf : List AirRecord) (c : Nat) (lt lt' : Option Int)
          (ws ws' : List TimeWarning) (cc cd fl att : List (List AirRecord))
          (sr : Bool),
          coreOf (runWorker fails 0 queue room buf ⟨c, lt, ws, cc, cd, fl, att, sr⟩) =
            coreOf (runWorker fails 0 queue room buf ⟨c, lt', ws', cc, cd, fl, att, sr⟩))) :=
  ⟨by decide, C7_order_validator_exact 0 (some 5) [sampleRec1, sampleRec0] (by decide)⟩

/-- Counterexample to C5 as stated: from `sampleLifeState` the termination
request leaves the lone worker (which needs 6 s, beyond the 5 s grace period)
alive and its checked-out connection open, so "after which every worker has
stopped and no connection remains open" is false at this input. -/
theorem C5_counterexample :
    ¬ ((signal_handler sampleLifeState).1.workers = [] ∧
        (signal_handler sampleLifeState).1.openConns = []) := by
  decide

/-- C5 as amended: on a termination request the Lifecycle Controller performs,
in order: set the running flag to false, drain the intake queue and inject a
sentinel stop marker, join each worker with the bounded 5-second grace
period, then close every pooled connection found in the pool's queue; every
worker that exits within the grace period is gone and its connection closed,
every connection idle in the pool is closed — but a worker that needs longer
than the grace period is abandoned, remains running, and its checked-out
connection is not closed by the pool loop. -/
theorem C5_shutdown_sequence (s : LifeState) :
    (signal_handler s).1.running = false ∧
    (signal_handler s).1.queue = [none] ∧
    (signal_handler s).1.poolIdle = [] ∧
    (signal_handler s).2 =
      LAction.setRunningFalse :: LAction.drainQueue :: LAction.putSentinel ::
        (s.workers.map (fun w => LAction.joinWorker w.connId) ++
          (s.poolIdle ++
            (s.workers.filter (fun w => decide (w.exitTime ≤ GRACE_PERIOD))).map
              SimWorker.connId).map LAction.closeConn) ∧
    (∀ w ∈ s.workers, w.exitTime ≤ GRACE_PERIOD →
      w ∉ (signal_handler s).1.workers ∧ w.connId ∉ (signal_handler s).1.openConns) ∧
    (∀ c ∈ s.poolIdle, c ∉ (signal_handler s).1.openConns) ∧
    (∀ w ∈ s.workers, GRACE_PERIOD < w.exitTime → w ∈ (signal_handler s).1.workers) := by
  refine ⟨rfl, rfl, rfl, by simp [signal_handler, cleanup_resources], ?_, ?_, ?_⟩
  · intro w hw hle
    constructor
    · intro hmem
      simp only [signal_handler, cleanup_resources, List.mem_filter,
        decide_eq_true_eq] at hmem
      omega
    · intro hmem
      simp only [signal_handler, cleanup_resources, List.mem_filter,
        decide_eq_true_eq, List.mem_append, List.mem_map, not_or] at hmem
      exact hmem.2.2 ⟨w, ⟨hw, hle⟩, rfl⟩
  · intro c hc hmem
    simp only [signal_handler, cleanup_resources, List.mem_filter,
      decide_eq_true_eq, List.mem_append, not_or] at hmem
    exact hmem.2.1 hc
  · intro w hw hgt
    simp only [signal_handler, cleanup_resources, List.mem_filter,
      decide_eq_true_eq]
    exact ⟨hw, hgt⟩

/-- Witness for C5's amended theorem at the concrete mid-run state. -/
theorem C5_shutdown_sequence_witness :
    (signal_handler sampleLifeState).1.running = false ∧
    (signal_handler sampleLifeState).1.queue = [none] ∧
    (signal_handler sampleLifeState).1.poolIdle = [] ∧
    (signal_handler sampleLifeState).2 =
      LAction.setRunningFalse :: LAction.drainQueue :: LAction.putSentinel ::
        (sampleLifeState.workers.map (fun w => LAction.joinWorker w.connId) ++
          (sampleLifeState.poolIdle ++
            (sampleLifeState.workers.filter
              (fun w => decide (w.exitTime ≤ GRACE_PERIOD))).map
              SimWorker.connId).map LAction.closeConn) ∧
    (∀ w ∈ sampleLifeState.workers, w.exitTime ≤ GRACE_PERIOD →
      w ∉ (signal_handler sampleLifeState).1.workers ∧
        w.connId ∉ (signal_handler sampleLifeState).1.openConns) ∧
    (∀ c ∈ sampleLifeState.poolIdle,
      c ∉ (signal_handler sampleLifeState).1.openConns) ∧
    (∀ w ∈ sampleLifeState.workers, GRACE_PERIOD < w.exitTime →
      w ∈ (signal_handler sampleLifeState).1.workers) :=
  C5_shutdown_sequence sampleLifeState

/-- The producer emits exactly floor(duration / interval) + 1 time points:
one per interval step from start while still at or before the end. -/
theorem producerTimes_length (delta endT : Int) (hd : 0 < delta) :
    ∀ (n : Nat) (cur : Int), (endT + 1 - cur).toNat = n → cur ≤ endT →
      (producerTimes delta endT cur).length =
        (endT - cur).toNat / delta.toNat + 1 := by
  intro n
  induction n using Nat.strong_induction_on with
  | _ n ih =>
      intro cur hn hle
      rw [producerTimes, dif_pos ⟨hle, hd⟩]
      by_cases h2 : cur + delta ≤ endT
      · have hlt : (endT + 1 - (cur + delta)).toNat < n := by omega
        have hrec := ih _ hlt (cur + delta) rfl h2
        simp only [List.length_cons, hrec]
        have hd' : 0 < delta.toNat := by omega
        have hba : delta.toNat ≤ (endT - cur).toNat := by omega
        have heq : (endT - (cur + delta)).toNat = (endT - cur).toNat - delta.toNat := by
          omega
        rw [heq, ← Nat.div_eq_sub_div hd' hba]
      · have hrec : producerTimes delta endT (cur + delta) = [] := by
          rw [producerTimes, dif_neg (fun hh => h2 hh.1)]
        rw [hrec]
        simp only [List.length_cons, List.length_nil]
        rw [Nat.div_eq_of_lt (by omega)]

/-- The producer's time points are strictly increasing. -/
theorem producerTimes_chain (delta endT : Int) (hd : 0 < delta) :
    ∀ (n : Nat) (cur : Int), (endT + 1 - cur).toNat = n →
      List.Chain' (fun a b : Int => a < b) (producerTimes delta endT cur) := by
  intro n
  induction n using Nat.strong_induction_on with
  | _ n ih =>
      intro cur hn
      rw [producerTimes]
      by_cases hle : cur ≤ endT
      · rw [dif_pos ⟨hle, hd⟩]
        rw [List.chain'_cons']
        constructor
        · intro b hb
          rw [producerTimes] at hb
          by_cases h2 : cur + delta ≤ endT
          · rw [dif_pos ⟨h2, hd⟩] at hb
            simp only [List.head?_cons, Option.mem_def, Option.some.injEq] at hb
            omega
          · rw [dif_neg (fun hh => h2 hh.1)] at hb
            simp at hb
        · exact ih _ (by omega) (cur + delta) rfl
      · rw [dif_neg (fun hh => hle hh.1)]
        exact List.chain'_nil

/-- The producer's time points contain no duplicate. -/
theorem producerTimes_nodup (delta endT start : Int) (hd : 0 < delta) :
    (producerTimes delta endT start).Nodup := by
  have hch := producerTimes_chain delta endT hd ((endT + 1 - start).toNat) start rfl
  have hpw := List.chain'_iff_pairwise.mp hch
  exact hpw.imp (fun hab => ne_of_lt hab)

/-- `splitSizes` yields one run per requested size. -/
theorem splitSizes_length (ns : List Nat) :
    ∀ pts : List Int, (splitSizes ns pts).length = ns.length := by
  induction ns with
  | nil => intro pts; rfl
  | cons n ns ih => intro pts; simp [splitSizes, ih]

/-- When the sizes sum to the point count, concatenating the runs gives back
the original point list: the assignment is exact — chronological, gap-free
and overlap-free. -/
theorem splitSizes_flatten (ns : List Nat) :
    ∀ pts : List Int, ns.sum = pts.length → (splitSizes ns pts).flatten = pts := by
  induction ns with
  | nil =>
      intro pts h
      cases pts with
      | nil => rfl
      | cons a l => simp at h
  | cons n ns ih =>
      intro pts h
      simp only [List.sum_cons] at h
      simp only [splitSizes, List.flatten_cons]
      rw [ih (pts.drop n) (by simp [List.length_drop]; omega)]
      exact List.take_append_drop n pts


/-- When the sizes fit inside the point count, each run has exactly its
requested size. -/
theorem splitSizes_map_length (ns : List Nat) :
    ∀ pts : List Int, ns.sum ≤ pts.length →
      (splitSizes ns pts).map List.length = ns := by
  induction ns with
  | nil => intro pts _; rfl
  | cons n ns ih =>
      intro pts h
      simp only [List.sum_cons] at h
      simp only [splitSizes, List.map_cons]
      rw [List.length_take, Nat.min_eq_left (by omega),
        ih (pts.drop n) (by simp [List.length_drop]; omega)]

/-- Summing a constant-plus-indicator map over `range W`. -/
theorem rangeSumBaseExtra (q r W : Nat) :
    ((List.range W).map (fun i => q + if i < r then 1 else 0)).sum =
      W * q + min r W := by
  induction W with
  | zero => simp
  | succ W ih =>
      rw [List.range_succ, List.map_append, List.sum_append, ih, Nat.succ_mul]
      generalize W * q = A
      by_cases h : W < r <;> simp [h] <;> omega

/-- The per-worker counts sum to the total. -/
theorem pointCounts_sum (total W : Nat) (hW : 1 ≤ W) :
    (pointCounts total W).sum = total := by
  unfold pointCounts
  rw [rangeSumBaseExtra]
  have hlt : total % W < W := Nat.mod_lt _ hW
  rw [Nat.min_eq_left (le_of_lt hlt)]
  exact Nat.div_add_mod total W

/-- Every per-worker count is the base or the base plus one. -/
theorem pointCounts_mem (total W : Nat) :
    ∀ x ∈ pointCounts total W, x = total / W ∨ x = total / W + 1 := by
  intro x hx
  simp only [pointCounts, List.mem_map, List.mem_range] at hx
  obtain ⟨i, _, rfl⟩ := hx
  by_cases h : i < total % W <;> simp [h]

/-- C3: for every valid input (start before end, positive interval, worker
count W at least 1), the producer of src/ generates total = floor(duration /
interval) + 1 distinct time points, and the spec-modelled Range Partitioner
splits them into W contiguous per-worker runs whose concatenation is exactly
the generated range (no gap, no overlap), where each worker receives
total / W points with the first total % W workers getting one extra, so
per-worker point counts differ by at most 1. -/
theorem C3_range_partition (start endT delta : Int) (W total : Nat)
    (hd : 0 < delta) (hse : start ≤ endT) (hW : 1 ≤ W)
    (htot : total = (endT - start).toNat / delta.toNat + 1) :
    (producerTimes delta endT start).length = total ∧
    (producerTimes delta endT start).Nodup ∧
    (partitionAssignments total W (producerTimes delta endT start)).length = W ∧
    (partitionAssignments total W (producerTimes delta endT start)).flatten =
      producerTimes delta endT start ∧
    (partitionAssignments total W (producerTimes delta endT start)).map List.length =
      pointCounts total W ∧
    (∀ x ∈ pointCounts total W, x = total / W ∨ x = total / W + 1) ∧
    (∀ x ∈ pointCounts total W, ∀ y ∈ pointCounts total W, x ≤ y + 1) := by
  have hlen := producerTimes_length delta endT hd ((endT + 1 - start).toNat) start rfl hse
  subst htot
  refine ⟨hlen, producerTimes_nodup delta endT start hd, ?_, ?_, ?_,
    pointCounts_mem _ _, ?_⟩
  · unfold partitionAssignments
    rw [splitSizes_length]
    simp [pointCounts]
  · exact splitSizes_flatten _ _ (by rw [pointCounts_sum _ _ hW, hlen])
  · exact splitSizes_map_length _ _ (by rw [pointCounts_sum _ _ hW, hlen])
  · intro x hx y hy
    rcases pointCounts_mem _ _ x hx with h1 | h1 <;>
      rcases pointCounts_mem _ _ y hy with h2 | h2 <;> omega

/-- Witness for C3 at the spec's own example: seconds 0..9, 1-second
interval, two workers, ten points split five and five. -/
theorem C3_range_partition_witness :
    ((0 : Int) < 1 ∧ (0 : Int) ≤ 9 ∧ (1 : Nat) ≤ 2 ∧
      (10 : Nat) = ((9 : Int) - 0).toNat / (1 : Int).toNat + 1) ∧
    ((producerTimes 1 9 0).length = 10 ∧
    (producerTimes 1 9 0).Nodup ∧
    (partitionAssignments 10 2 (producerTimes 1 9 0)).length = 2 ∧
    (partitionAssignments 10 2 (producerTimes 1 9 0)).flatten =
      producerTimes 1 9 0 ∧
    (partitionAssignments 10 2 (producerTimes 1 9 0)).map List.length =
      pointCounts 10 2 ∧
    (∀ x ∈ pointCounts 10 2, x = 10 / 2 ∨ x = 10 / 2 + 1) ∧
    (∀ x ∈ pointCounts 10 2, ∀ y ∈ pointCounts 10 2, x ≤ y + 1)) :=
  ⟨⟨by norm_num, by norm_num, by norm_num, by decide⟩,
    C3_range_partition 0 9 1 2 10 (by norm_num) (by norm_num) (by norm_num)
      (by decide)⟩

/-- A range-partitioned worker generates one record per (time point, device)
pair, so its record count is points times devices. -/
theorem rangeWorkerRecords_length (uniform : Nat → ℚ → ℚ → ℚ) (idv : Nat)
    (now : Int) :
    ∀ (pts : List Int) (devices : List String),
      (rangeWorkerRecords uniform idv now pts devices).length =
        pts.length * devices.length := by
  intro pts devices
  induction pts with
  | nil => simp [rangeWorkerRecords]
  | cons t ts ih =>
      simp only [rangeWorkerRecords, List.map_cons, List.flatten_cons,
        List.length_append, List.length_map, List.length_cons] at ih ⊢
      rw [ih]
      ring

/-- C2: for a worker with no row failures, after it exhausts its assigned
sub-range its insertedCount equals expectedCount = (time points in the
sub-range) x (device count); the spec-modelled Completeness Auditor compares
exactly these two values and logs a mismatch precisely when they differ —
hence logs nothing for such a worker. -/
theorem C2_no_failure_audit (uniform : Nat → ℚ → ℚ → ℚ) (idv : Nat) (now : Int)
    (pts : List Int) (devices : List String) :
    (auditWorker pts devices
        (rangeWorkerInsertedCount uniform idv now pts devices)).actual =
      (auditWorker pts devices
        (rangeWorkerInsertedCount uniform idv now pts devices)).expected ∧
    (auditWorker pts devices
        (rangeWorkerInsertedCount uniform idv now pts devices)).expected =
      pts.length * devices.length ∧
    (auditWorker pts devices
        (rangeWorkerInsertedCount uniform idv now pts devices)).mismatchLogged =
      false ∧
    (∀ c : Nat, (auditWorker pts devices c).mismatchLogged = true ↔
      c ≠ pts.length * devices.length) := by
  have h1 : rangeWorkerInsertedCount uniform idv now pts devices =
      pts.length * devices.length := rangeWorkerRecords_length uniform idv now pts devices
  refine ⟨?_, rfl, ?_, ?_⟩
  · simp [auditWorker, h1]
  · simp [auditWorker, h1]
  · intro c
    simp [auditWorker]

/-- Witness for C2: two time points, two devices, expected = actual = 4 and
no mismatch logged. -/
theorem C2_no_failure_audit_witness :
    (auditWorker [0, 1] ["MN00001", "MN00002"]
        (rangeWorkerInsertedCount uniformLow 0 0 [0, 1] ["MN00001", "MN00002"])).actual =
      (auditWorker [0, 1] ["MN00001", "MN00002"]
        (rangeWorkerInsertedCount uniformLow 0 0 [0, 1] ["MN00001", "MN00002"])).expected ∧
    (auditWorker [0, 1] ["MN00001", "MN00002"]
        (rangeWorkerInsertedCount uniformLow 0 0 [0, 1] ["MN00001", "MN00002"])).expected =
      ([0, 1] : List Int).length * (["MN00001", "MN00002"] : List String).length ∧
    (auditWorker [0, 1] ["MN00001", "MN00002"]
        (rangeWorkerInsertedCount uniformLow 0 0 [0, 1] ["MN00001", "MN00002"])).mismatchLogged =
      false ∧
    (∀ c : Nat, (auditWorker [0, 1] ["MN00001", "MN00002"] c).mismatchLogged = true ↔
      c ≠ ([0, 1] : List Int).length * (["MN00001", "MN00002"] : List String).length) :=
  C2_no_failure_audit uniformLow 0 0 [0, 1] ["MN00001", "MN00002"]
